import Mathlib

/-!
Verification of the logging facility of the MachineLearning framework
(`tools/logger.hpp`).  The logger is a process-wide singleton with a
numeric severity threshold, a lazily opened append-mode file sink, and an
optional MPI-distributed collection protocol (listener thread on rank 0).

The shallow embedding below translates the logger member functions into
pure Lean functions over an explicit `FileState`, and the distributed
shutdown/listener interaction into a small-step transition relation.
Severity levels are embedded as `Nat`, matching the numeric values of the
C++ `enum logstate { none = 0, error = 1, warn = 2, info = 3 }`; this also
lets us reason about out-of-range numeric values that a C++ enum variable
can carry.
-/

deriving instance DecidableEq for Except

namespace logger

/-- Error taxonomy of the spec.  `InvalidSeverity` models the
`exception::runtime("log state is unkown")` thrown by `logger::logformat`
on its `default` switch branch; `IOFailure` is the spec's name for a
failed open/write/flush (the C++ code never actually throws it, which is
exactly what some theorems below establish). -/
inductive LogError where
  | InvalidSeverity : LogError
  | IOFailure : LogError
deriving DecidableEq

/-- State of the backing log file (`m_file` plus its environment).
`canOpen` is the environment assumption saying whether an `open` call on
the path would succeed; `contents` is the sequence of strings written to
the file (each `operator<<`/newline pair as one entry); `flushes` counts
calls to `m_file.flush()`; `openAttempts` counts calls to
`m_file.open(...)`. -/
structure FileState where
  isOpen : Bool
  canOpen : Bool
  contents : List String
  flushes : Nat
  openAttempts : Nat
deriving DecidableEq

/-- `logstate` values are embedded as their numeric enum values. -/
abbrev logstate := Nat

/-- `logstate::none = 0`. -/
def noneState : logstate := 0

/-- `logstate::error = 1`. -/
def errorState : logstate := 1

/-- `logstate::warn = 2`. -/
def warnState : logstate := 2

/-- `logstate::info = 3`. -/
def infoState : logstate := 3

/-- `logger::logformat(p_state, p_val, p_stream)`: appends the level label
and the value to the stream; the labels carry the exact padding of the
C++ string literals.  On any level other than `info`, `warn`, `error` the
C++ code throws (`default: throw exception::runtime(...)`), embedded as
`Except.error InvalidSeverity`. -/
def logformat (p_state : logstate) (p_val : String) (p_stream : String) :
    Except LogError String :=
  if p_state = 3 then .ok (p_stream ++ "[info]       " ++ p_val)
  else if p_state = 2 then .ok (p_stream ++ "[warn]       " ++ p_val)
  else if p_state = 1 then .ok (p_stream ++ "[error]      " ++ p_val)
  else .error LogError.InvalidSeverity

/-- `logger::write2file(p_data)`: returns unchanged on an empty stream;
otherwise (under `m_muxwriter`, not modelled in this sequential embedding)
lazily opens the file in append mode if it is not open, writes
`p_data << "\n"`, and flushes.  The C++ stream operations do not throw:
a failed open leaves the stream unopened and the write and flush are
silently ignored, so the function always returns `Except.ok`. -/
def write2file (p_data : String) (st : FileState) : Except LogError FileState :=
  if p_data = "" then .ok st
  else
    let st1 := if st.isOpen then st
      else { st with isOpen := st.canOpen, openAttempts := st.openAttempts + 1 }
    let st2 := if st1.isOpen then { st1 with contents := st1.contents ++ [p_data ++ "\n"] }
      else st1
    .ok { st2 with flushes := st2.flushes + 1 }

/-- `logger::write(p_state, p_val)` (local variant): returns immediately
when `m_logstate == none`, `p_state == none`, or `p_state > m_logstate`;
otherwise builds `"local - "` followed by the formatted message and hands
it to `write2file`. -/
def write (m_logstate : Nat) (p_state : Nat) (p_val : String)
    (st : FileState) : Except LogError FileState :=
  if m_logstate = 0 ∨ p_state = 0 ∨ p_state > m_logstate then .ok st
  else
    match logformat p_state p_val "local - " with
    | .error e => .error e
    | .ok l_stream => write2file l_stream st

/-- `logger::write(p_mpi, p_state, p_val)` (MPI variant): same severity
filter; the stream starts with `"CPU <rank> - "`; rank 0 writes the line
to the file itself, any other rank issues `isend(0, LOGGER_MPI_TAG, str)`,
embedded as appending the string to `sendQueue` (the fire-and-forget
network buffer) and returning at once. -/
def writeMpi (m_logstate : Nat) (rank : Nat) (p_state : Nat)
    (p_val : String) (st : FileState) (sendQueue : List String) :
    Except LogError (FileState × List String) :=
  if m_logstate = 0 ∨ p_state = 0 ∨ p_state > m_logstate then .ok (st, sendQueue)
  else
    match logformat p_state p_val ("CPU " ++ toString rank ++ " - ") with
    | .error e => .error e
    | .ok l_stream =>
      if rank = 0 then
        match write2file l_stream st with
        | .error e => .error e
        | .ok st2 => .ok (st2, sendQueue)
      else
        .ok (st, sendQueue ++ [l_stream])

/-- State touched by `logger::startListener`: the `m_listenerrunnging`
flag (name kept from the source), the number of listener threads ever
spawned, and the number of `barrier()` calls executed. -/
structure MpiLogger where
  m_listenerrunnging : Bool
  listenerThreads : Nat
  barriers : Nat
deriving DecidableEq

/-- `logger::startListener(p_mpi)`: executes the collective barrier, then
returns unless this is rank 0 of a job of size > 1 with no listener
already running; otherwise (under `m_muxlistener`) sets
`m_listenerrunnging = true` and spawns the listener thread. -/
def startListener (rank : Nat) (size : Nat) (st : MpiLogger) : MpiLogger :=
  let st1 := { st with barriers := st.barriers + 1 }
  if rank ≠ 0 ∨ size = 1 ∨ st1.m_listenerrunnging = true then st1
  else { st1 with m_listenerrunnging := true, listenerThreads := st1.listenerThreads + 1 }

/-- The padded level label the C++ `logformat` writes for each
emit-capable level (empty for any other value). -/
def levelLabelPadded (l : Nat) : String :=
  if l = 3 then "[info]       "
  else if l = 2 then "[warn]       "
  else if l = 1 then "[error]      "
  else ""

/-- The line shape the spec asserts for persisted lines:
`"<origin> - [<level>] <text>"` with a single space after the bracketed
label.  Written from the spec's words, to be compared with what the code
actually produces. -/
def specLineShape (origin : String) (label : String) (text : String) : String :=
  origin ++ " - [" ++ label ++ "] " ++ text

end logger

namespace logger

/-! ## The shutdown/listener interaction as a transition system

`logger::shutdownListener` runs `m_listenerrunnging = false`, then
`barrier()`, then (rank 0 only) a blocking acquire of `m_muxfinalize`.
The listener thread (`logger::listener`) holds `m_muxfinalize` for its
whole lifetime: `while (m_listenerrunnging) { while (iprobe) { recv;
write2file } ; yield }`.  The states below track both threads' program
counters on the coordinator, the `running` flag, the lock, messages still
in flight in the network, and messages delivered to the coordinator's MPI
buffer but not yet received. -/

/-- Program counter of the listener thread: about to test the outer
`while (m_listenerrunnging)`, inside the inner drain loop, or exited
(lock released). -/
inductive ListenerPC where
  | outerCheck : ListenerPC
  | innerDrain : ListenerPC
  | finished : ListenerPC
deriving DecidableEq

/-- Program counter of the thread calling `shutdownListener` on rank 0. -/
inductive ShutdownPC where
  | start : ShutdownPC
  | afterFlag : ShutdownPC
  | afterBarrier : ShutdownPC
  | returned : ShutdownPC
deriving DecidableEq

/-- Joint state of the coordinator during shutdown. -/
structure SysState where
  running : Bool
  lockHeld : Bool
  inflight : List String
  pending : List String
  file : List String
  listenerPC : ListenerPC
  shutdownPC : ShutdownPC
deriving DecidableEq

/-- One interleaved step of the shutdown caller, the listener thread, or
the network delivering an in-flight message to the coordinator's buffer
(MPI point-to-point delivery is not synchronized by the barrier, so
delivery may happen at any time after the send). -/
inductive Step : SysState → SysState → Prop where
  | deliver (s : SysState) (m : String) (rest : List String) :
      s.inflight = m :: rest →
      Step s { s with inflight := rest, pending := s.pending ++ [m] }
  | shutdownFlag (s : SysState) :
      s.shutdownPC = .start →
      Step s { s with running := false, shutdownPC := .afterFlag }
  | shutdownBarrier (s : SysState) :
      s.shutdownPC = .afterFlag →
      Step s { s with shutdownPC := .afterBarrier }
  | shutdownJoin (s : SysState) :
      s.shutdownPC = .afterBarrier → s.lockHeld = false →
      Step s { s with shutdownPC := .returned }
  | listenerEnter (s : SysState) :
      s.listenerPC = .outerCheck → s.running = true →
      Step s { s with listenerPC := .innerDrain }
  | listenerLeave (s : SysState) :
      s.listenerPC = .outerCheck → s.running = false →
      Step s { s with listenerPC := .finished, lockHeld := false }
  | listenerRecv (s : SysState) (m : String) (rest : List String) :
      s.listenerPC = .innerDrain → s.pending = m :: rest →
      Step s { s with pending := rest, file := s.file ++ [m] }
  | listenerYield (s : SysState) :
      s.listenerPC = .innerDrain → s.pending = [] →
      Step s { s with listenerPC := .outerCheck }

/-- Invariant connecting the lock, the listener and the shutdown caller:
the lock is held while the listener has not exited, the shutdown call can
only have returned once the listener has exited, and past the first
shutdown statement the `running` flag stays `false`. -/
def Inv (s : SysState) : Prop :=
  (s.listenerPC ≠ .finished → s.lockHeld = true) ∧
  (s.shutdownPC = .returned → s.listenerPC = .finished) ∧
  (s.shutdownPC ≠ .start → s.running = false)

lemma inv_step {b c : SysState} (hb : Inv b) (h : Step b c) : Inv c := by
  obtain ⟨h1, h2, h3⟩ := hb
  cases h with
  | deliver m rest hm =>
      exact ⟨h1, h2, h3⟩
  | shutdownFlag hs =>
      refine ⟨h1, ?_, ?_⟩
      · intro hret
        exact absurd hret (by simp)
      · intro _
        rfl
  | shutdownBarrier hs =>
      refine ⟨h1, ?_, ?_⟩
      · intro hret
        exact absurd hret (by simp)
      · intro _
        exact h3 (by simp [hs])
  | shutdownJoin hs hl =>
      refine ⟨?_, ?_, ?_⟩
      · intro hne
        exact absurd (h1 hne) (by simp [hl])
      · intro _
        by_contra hne
        exact absurd (h1 hne) (by simp [hl])
      · intro _
        exact h3 (by simp [hs])
  | listenerEnter hpc hr =>
      refine ⟨?_, ?_, h3⟩
      · intro _
        exact h1 (by simp [hpc])
      · intro hret
        exact absurd (h2 hret) (by simp [hpc])
  | listenerLeave hpc hr =>
      refine ⟨?_, ?_, h3⟩
      · intro hne
        exact absurd rfl hne
      · intro _
        rfl
  | listenerRecv m rest hpc hp =>
      refine ⟨?_, ?_, h3⟩
      · intro _
        exact h1 (by simp [hpc])
      · intro hret
        exact absurd (h2 hret) (by simp [hpc])
  | listenerYield hpc hp =>
      refine ⟨?_, ?_, h3⟩
      · intro _
        exact h1 (by simp [hpc])
      · intro hret
        exact absurd (h2 hret) (by simp [hpc])

lemma inv_reachable {a s : SysState} (ha : Inv a)
    (h : Relation.ReflTransGen Step a s) : Inv s := by
  induction h with
  | refl => exact ha
  | tail _ hstep ih => exact inv_step ih hstep

/-! ## Helper lemmas -/

lemma append_ne_empty_left (a b : String) (h : a ≠ "") : a ++ b ≠ "" := by
  intro hab
  have hd := congrArg String.data hab
  rw [String.data_append] at hd
  have hnil : String.data "" = ([] : List Char) := rfl
  rw [hnil] at hd
  exact h (String.ext (List.append_eq_nil.mp hd).1)

lemma logformat_emit (l : Nat) (v s : String) (h : l = 1 ∨ l = 2 ∨ l = 3) :
    logformat l v s = .ok (s ++ levelLabelPadded l ++ v) := by
  rcases h with h | h | h <;> subst h <;> rfl

lemma logformat_reject (l : Nat) (v s : String)
    (h1 : l ≠ 1) (h2 : l ≠ 2) (h3 : l ≠ 3) :
    logformat l v s = .error LogError.InvalidSeverity := by
  unfold logformat
  rw [if_neg h3, if_neg h2, if_neg h1]

lemma write2file_isOpen (d : String) (st : FileState) (hd : d ≠ "")
    (ho : st.isOpen = true) :
    write2file d st =
      .ok { st with contents := st.contents ++ [d ++ "\n"],
                    flushes := st.flushes + 1 } := by
  obtain ⟨o, c, cs, f, a⟩ := st
  dsimp only at ho
  subst ho
  simp [write2file, hd]

lemma write2file_lazyOpen (d : String) (st : FileState) (hd : d ≠ "")
    (ho : st.isOpen = false) (hc : st.canOpen = true) :
    write2file d st =
      .ok { st with isOpen := true,
                    contents := st.contents ++ [d ++ "\n"],
                    flushes := st.flushes + 1,
                    openAttempts := st.openAttempts + 1 } := by
  obtain ⟨o, c, cs, f, a⟩ := st
  dsimp only at ho hc
  subst ho
  subst hc
  simp [write2file, hd]

lemma write2file_openFailed (d : String) (st : FileState) (hd : d ≠ "")
    (ho : st.isOpen = false) (hc : st.canOpen = false) :
    write2file d st =
      .ok { st with flushes := st.flushes + 1,
                    openAttempts := st.openAttempts + 1 } := by
  obtain ⟨o, c, cs, f, a⟩ := st
  dsimp only at ho hc
  subst ho
  subst hc
  simp [write2file, hd]

lemma write2file_isOk (d : String) (st : FileState) :
    ∃ st2, write2file d st = .ok st2 ∧
      (d ≠ "" → st2.flushes = st.flushes + 1) ∧
      (d = "" → st2 = st) := by
  by_cases hd : d = ""
  · exact ⟨st, by simp [write2file, hd], fun h => absurd hd h, fun _ => rfl⟩
  · rcases ho : st.isOpen with hfo | hto
    · rcases hc : st.canOpen with hfc | htc
      · exact ⟨_, write2file_openFailed d st hd ho hc, fun _ => rfl,
          fun h => absurd h hd⟩
      · exact ⟨_, write2file_lazyOpen d st hd ho hc, fun _ => rfl,
          fun h => absurd h hd⟩
    · exact ⟨_, write2file_isOpen d st hd ho, fun _ => rfl, fun h => absurd h hd⟩

lemma local_stream_ne_empty (l : Nat) (v : String) :
    "local - " ++ levelLabelPadded l ++ v ≠ "" :=
  append_ne_empty_left _ v (append_ne_empty_left _ _ (by decide))

lemma cpu_stream_ne_empty (r : Nat) (l : Nat) (v : String) :
    ("CPU " ++ toString r ++ " - ") ++ levelLabelPadded l ++ v ≠ "" :=
  append_ne_empty_left _ v (append_ne_empty_left _ _
    (append_ne_empty_left _ _ (append_ne_empty_left _ _ (by decide))))

lemma write_suppressed (m l : Nat) (v : String) (st : FileState)
    (h : m = 0 ∨ l = 0 ∨ l > m) : write m l v st = .ok st := by
  unfold write
  rw [if_pos h]

lemma write2file_contents (d : String) (st st2 : FileState)
    (h : write2file d st = .ok st2) :
    st2.contents = st.contents ∨ st2.contents = st.contents ++ [d ++ "\n"] := by
  by_cases hd : d = ""
  · left
    simp only [write2file, if_pos hd, Except.ok.injEq] at h
    rw [h]
  · cases ho : st.isOpen with
    | false =>
      cases hc : st.canOpen with
      | false =>
          rw [write2file_openFailed d st hd ho hc] at h
          injection h with h2
          subst h2
          left
          rfl
      | true =>
          rw [write2file_lazyOpen d st hd ho hc] at h
          injection h with h2
          subst h2
          right
          rfl
    | true =>
      rw [write2file_isOpen d st hd ho] at h
      injection h with h2
      subst h2
      right
      rfl

lemma write_emit_eq (m l : Nat) (v : String) (st : FileState)
    (hpass : ¬(m = 0 ∨ l = 0 ∨ l > m)) (hl : l = 1 ∨ l = 2 ∨ l = 3) :
    write m l v st = write2file ("local - " ++ levelLabelPadded l ++ v) st := by
  unfold write
  rw [if_neg hpass, logformat_emit l v _ hl]

/-! ## Claim theorems -/

/-- Claim C1: the local `write(level, text)` performs file I/O (enters
`write2file`, which opens/appends/flushes) if and only if the level is not
`none`, the threshold is not `none`, and the level is numerically at most
the threshold; in particular a `none` threshold suppresses every message. -/
theorem write_emits_iff_filter (m l : Nat) (v : String) (st : FileState)
    (hm : m ≤ 3) (hl : l ≤ 3) :
    ((l ≠ 0 ∧ m ≠ 0 ∧ l ≤ m) →
      ∃ st2, write m l v st = .ok st2 ∧ st2.flushes = st.flushes + 1) ∧
    (¬(l ≠ 0 ∧ m ≠ 0 ∧ l ≤ m) → write m l v st = .ok st) := by
  constructor
  · rintro ⟨hl0, hm0, hlm⟩
    have hpass : ¬(m = 0 ∨ l = 0 ∨ l > m) := by omega
    have hl123 : l = 1 ∨ l = 2 ∨ l = 3 := by omega
    rw [write_emit_eq m l v st hpass hl123]
    obtain ⟨st2, heq, hfl, _⟩ := write2file_isOk ("local - " ++ levelLabelPadded l ++ v) st
    exact ⟨st2, heq, hfl (local_stream_ne_empty l v)⟩
  · intro hfail
    apply write_suppressed
    by_contra hcon
    push_neg at hcon
    exact hfail ⟨by omega, by omega, by omega⟩

/-- Witness for C1 at level `info`, threshold `info`. -/
theorem write_emits_iff_filter_w :
    ∃ st2, write 3 3 "hello" ⟨true, true, [], 0, 0⟩ = .ok st2 ∧
      st2.flushes = 0 + 1 :=
  (write_emits_iff_filter 3 3 "hello" ⟨true, true, [], 0, 0⟩ (by decide)
    (by decide)).1 (by decide)

/-- Counterexample to claim C2 as stated: `write(none, text)` with an
`info` threshold does not fail with `InvalidSeverity` — the severity
filter returns before `logformat` can validate the label. -/
theorem write_none_silent :
    write 3 0 "hello" ⟨true, true, [], 0, 0⟩ = .ok ⟨true, true, [], 0, 0⟩ ∧
    write 3 0 "hello" ⟨true, true, [], 0, 0⟩ ≠ .error LogError.InvalidSeverity := by
  exact ⟨rfl, by decide⟩

/-- Claim C2 (amended): a call to `write(level, text)` with a level
outside the three emit-capable labels fails with `InvalidSeverity`,
surfaced synchronously, exactly when the level survives the severity
filter (level ≠ none, threshold ≠ none, level ≤ threshold numerically);
when the filter removes it — in particular for level `none` — the call
returns normally with no error and no I/O. -/
theorem write_invalid_level (m l : Nat) (v : String) (st : FileState)
    (h1 : l ≠ 1) (h2 : l ≠ 2) (h3 : l ≠ 3) :
    ((l ≠ 0 ∧ m ≠ 0 ∧ l ≤ m) →
      write m l v st = .error LogError.InvalidSeverity) ∧
    (¬(l ≠ 0 ∧ m ≠ 0 ∧ l ≤ m) → write m l v st = .ok st) := by
  constructor
  · rintro ⟨hl0, hm0, hlm⟩
    have hpass : ¬(m = 0 ∨ l = 0 ∨ l > m) := by omega
    unfold write
    rw [if_neg hpass, logformat_reject l v _ h1 h2 h3]
  · intro hfail
    apply write_suppressed
    by_contra hcon
    push_neg at hcon
    exact hfail ⟨by omega, by omega, by omega⟩

/-- Witness for C2 (amended): numeric level 4 with (out-of-range) numeric
threshold 5 reaches `logformat` and fails. -/
theorem write_invalid_level_w :
    write 5 4 "x" ⟨true, true, [], 0, 0⟩ = .error LogError.InvalidSeverity :=
  (write_invalid_level 5 4 "x" ⟨true, true, [], 0, 0⟩ (by decide) (by decide)
    (by decide)).1 (by decide)

/-- Counterexample to claim C3 as stated: `write(info, "")` under an
`info` threshold appends the 22-byte line `"local - [info]       \n"` to
the file — not zero bytes.  The empty-stream check in `write2file` never
fires for `write` calls because the stream always carries the origin and
label. -/
theorem write_empty_message_emits :
    write 3 3 "" ⟨true, true, [], 0, 0⟩ =
      .ok ⟨true, true, ["local - [info]       \n"], 1, 0⟩ ∧
    ("local - [info]       \n" : String) ≠ "" ∧
    ("local - [info]       \n" : String).length = 22 := by
  refine ⟨rfl, by decide, by decide⟩

/-- Claim C3 (amended): for every emit-capable level, `write(level, "")`
is safe (never raises an error); it produces zero bytes of output exactly
when the severity filter suppresses the message, and otherwise appends a
line consisting of the origin and the padded level label with empty
text. -/
theorem write_empty_message (m l : Nat) (st : FileState)
    (hl : l = 1 ∨ l = 2 ∨ l = 3) :
    (∃ st2, write m l "" st = .ok st2) ∧
    (¬(m ≠ 0 ∧ l ≤ m) → write m l "" st = .ok st) ∧
    ((m ≠ 0 ∧ l ≤ m) → st.isOpen = true →
      write m l "" st = .ok { st with
        contents := st.contents ++ ["local - " ++ levelLabelPadded l ++ "" ++ "\n"],
        flushes := st.flushes + 1 }) := by
  refine ⟨?_, ?_, ?_⟩
  · by_cases hp : m = 0 ∨ l = 0 ∨ l > m
    · exact ⟨st, write_suppressed m l "" st hp⟩
    · rw [write_emit_eq m l "" st hp hl]
      obtain ⟨st2, heq, _, _⟩ := write2file_isOk _ st
      exact ⟨st2, heq⟩
  · intro hfail
    apply write_suppressed
    by_contra hcon
    push_neg at hcon
    exact hfail ⟨by omega, by omega⟩
  · rintro ⟨hm0, hlm⟩ ho
    have hpass : ¬(m = 0 ∨ l = 0 ∨ l > m) := by omega
    rw [write_emit_eq m l "" st hpass hl,
      write2file_isOpen _ st (local_stream_ne_empty l "") ho]

/-- Witness for C3 (amended): level `warn`, threshold `warn`, open file. -/
theorem write_empty_message_w :
    (¬((2 : Nat) ≠ 0 ∧ 2 ≤ 2) →
      write 2 2 "" ⟨true, true, [], 0, 0⟩ = .ok ⟨true, true, [], 0, 0⟩) ∧
    (((2 : Nat) ≠ 0 ∧ 2 ≤ 2) → (true : Bool) = true →
      write 2 2 "" ⟨true, true, [], 0, 0⟩ = .ok ⟨true, true,
        ["local - " ++ levelLabelPadded 2 ++ "" ++ "\n"], 0 + 1, 0⟩) :=
  (write_empty_message 2 2 ⟨true, true, [], 0, 0⟩ (by decide)).2

/-- Counterexample to claim C4 as stated: when the backing file cannot be
opened, `write2file` does not fail and surfaces no `IOFailure` — the C++
stream operations are silent, the line is lost and the call returns
normally. -/
theorem write2file_openFailure_silent :
    write2file "line" ⟨false, false, [], 0, 0⟩ = .ok ⟨false, false, [], 1, 1⟩ ∧
    write2file "line" ⟨false, false, [], 0, 0⟩ ≠ .error LogError.IOFailure := by
  exact ⟨rfl, by decide⟩

/-- Claim C4 (amended): when the backing file cannot be opened, the append
call does not fail: no `IOFailure` (or any error) is surfaced to the
caller, the open is attempted exactly once within the call (not retried),
the file contents are unchanged (the line is silently dropped) and the
flush call is still made. -/
theorem write2file_openFailure (d : String) (st : FileState)
    (ho : st.isOpen = false) (hc : st.canOpen = false) (hd : d ≠ "") :
    write2file d st = .ok { st with flushes := st.flushes + 1,
                                    openAttempts := st.openAttempts + 1 } :=
  write2file_openFailed d st hd ho hc

/-- Witness for C4 (amended) on a file state with prior history. -/
theorem write2file_openFailure_w :
    write2file "entry" ⟨false, false, ["old\n"], 5, 2⟩ =
      .ok ⟨false, false, ["old\n"], 6, 3⟩ :=
  write2file_openFailure "entry" ⟨false, false, ["old\n"], 5, 2⟩ rfl rfl
    (by decide)

/-- Counterexample to claim C5 as stated: the level label is padded with
spaces to a fixed 13-character field, so `write(info, "hello")` persists
the line `"local - [info]       hello"`, which differs from the claimed
literal shape `"<origin> - [<level>] <text>"` with a single space before
the text. -/
theorem persisted_line_padded :
    write 3 3 "hello" ⟨true, true, [], 0, 0⟩ =
      .ok ⟨true, true, ["local - [info]       hello\n"], 1, 0⟩ ∧
    ("local - [info]       hello" : String) ≠
      specLineShape "local" "info" "hello" := by
  exact ⟨rfl, by decide⟩

/-- Claim C5 (amended): every line appended to the log file has the shape
`"<origin> - <paddedlabel><text>"` where `<origin>` is `"local"` for the
local writer or `"CPU <rank>"` for the distributed writer, and
`<paddedlabel>` is the level label padded with spaces to a 13-character
field (`"[info]       "`, `"[warn]       "`, `"[error]      "`) for one
of the three emit-capable levels; the message a non-coordinator sends has
the same shape without the trailing newline. -/
theorem persisted_line_shape :
    (∀ (m l : Nat) (v : String) (st st2 : FileState),
        write m l v st = .ok st2 →
        st2.contents = st.contents ∨
        ((l = 1 ∨ l = 2 ∨ l = 3) ∧
          st2.contents = st.contents ++
            ["local - " ++ levelLabelPadded l ++ v ++ "\n"])) ∧
    (∀ (m r l : Nat) (v : String) (st st2 : FileState) (q q2 : List String),
        writeMpi m r l v st q = .ok (st2, q2) →
        (st2.contents = st.contents ∨
          ((l = 1 ∨ l = 2 ∨ l = 3) ∧
            st2.contents = st.contents ++
              ["CPU " ++ toString r ++ " - " ++ levelLabelPadded l ++ v ++ "\n"])) ∧
        (q2 = q ∨ ((l = 1 ∨ l = 2 ∨ l = 3) ∧
            q2 = q ++ ["CPU " ++ toString r ++ " - " ++ levelLabelPadded l ++ v]))) := by
  constructor
  · intro m l v st st2 h
    by_cases hp : m = 0 ∨ l = 0 ∨ l > m
    · rw [write_suppressed m l v st hp] at h
      injection h with h2
      subst h2
      left
      rfl
    · by_cases hl : l = 1 ∨ l = 2 ∨ l = 3
      · rw [write_emit_eq m l v st hp hl] at h
        rcases write2file_contents _ _ _ h with hc | hc
        · exact Or.inl hc
        · exact Or.inr ⟨hl, hc⟩
      · push_neg at hl
        simp only [write, if_neg hp,
          logformat_reject l v _ hl.1 hl.2.1 hl.2.2] at h
        exact absurd h (by simp)
  · intro m r l v st st2 q q2 h
    by_cases hp : m = 0 ∨ l = 0 ∨ l > m
    · simp only [writeMpi, if_pos hp, Except.ok.injEq, Prod.mk.injEq] at h
      obtain ⟨h1, h2⟩ := h
      subst h1
      subst h2
      exact ⟨Or.inl rfl, Or.inl rfl⟩
    · by_cases hl : l = 1 ∨ l = 2 ∨ l = 3
      · simp only [writeMpi, if_neg hp, logformat_emit l v _ hl] at h
        by_cases hr : r = 0
        · rw [if_pos hr] at h
          obtain ⟨stw, hw, _, _⟩ :=
            write2file_isOk (("CPU " ++ toString r ++ " - ") ++ levelLabelPadded l ++ v) st
          rw [hw] at h
          simp only [Except.ok.injEq, Prod.mk.injEq] at h
          obtain ⟨h1, h2⟩ := h
          subst h1
          subst h2
          refine ⟨?_, Or.inl rfl⟩
          rcases write2file_contents _ _ _ hw with hc | hc
          · exact Or.inl hc
          · exact Or.inr ⟨hl, hc⟩
        · rw [if_neg hr] at h
          simp only [Except.ok.injEq, Prod.mk.injEq] at h
          obtain ⟨h1, h2⟩ := h
          subst h1
          subst h2
          exact ⟨Or.inl rfl, Or.inr ⟨hl, rfl⟩⟩
      · push_neg at hl
        simp only [writeMpi, if_neg hp,
          logformat_reject l v _ hl.1 hl.2.1 hl.2.2] at h
        exact absurd h (by simp)

/-- Witness for C5 (amended) on a local `warn` write to an open file. -/
theorem persisted_line_shape_w :
    (⟨true, true, ["local - [warn]       hey\n"], 1, 0⟩ : FileState).contents =
      (⟨true, true, [], 0, 0⟩ : FileState).contents ∨
    (((2 : Nat) = 1 ∨ (2 : Nat) = 2 ∨ (2 : Nat) = 3) ∧
      (⟨true, true, ["local - [warn]       hey\n"], 1, 0⟩ : FileState).contents =
        (⟨true, true, [], 0, 0⟩ : FileState).contents ++
          ["local - " ++ levelLabelPadded 2 ++ "hey" ++ "\n"]) :=
  (persisted_line_shape).1 2 2 "hey" ⟨true, true, [], 0, 0⟩
    ⟨true, true, ["local - [warn]       hey\n"], 1, 0⟩ rfl

/-- Claim C6: the distributed `write` applies `shouldEmit` locally — a
filtered-out message causes no send and no file change; a passing message
on the coordinator (rank 0) goes straight to the file sink; on any other
rank it is appended to the outbound fire-and-forget send queue and the
call returns at once with the file untouched. -/
theorem writeMpi_paths (m r l : Nat) (v : String) (st : FileState)
    (q : List String) (hl : l ≤ 3) :
    (¬(l ≠ 0 ∧ m ≠ 0 ∧ l ≤ m) → writeMpi m r l v st q = .ok (st, q)) ∧
    ((l ≠ 0 ∧ m ≠ 0 ∧ l ≤ m) → r = 0 → st.isOpen = true →
      writeMpi m r l v st q = .ok ({ st with
        contents := st.contents ++
          ["CPU " ++ toString r ++ " - " ++ levelLabelPadded l ++ v ++ "\n"],
        flushes := st.flushes + 1 }, q)) ∧
    ((l ≠ 0 ∧ m ≠ 0 ∧ l ≤ m) → r ≠ 0 →
      writeMpi m r l v st q =
        .ok (st, q ++ ["CPU " ++ toString r ++ " - " ++ levelLabelPadded l ++ v])) := by
  refine ⟨?_, ?_, ?_⟩
  · intro hfail
    have hp : m = 0 ∨ l = 0 ∨ l > m := by
      by_contra hcon
      push_neg at hcon
      exact hfail ⟨by omega, by omega, by omega⟩
    simp only [writeMpi, if_pos hp]
  · rintro ⟨hl0, hm0, hlm⟩ hr ho
    have hp : ¬(m = 0 ∨ l = 0 ∨ l > m) := by omega
    have hl123 : l = 1 ∨ l = 2 ∨ l = 3 := by omega
    simp only [writeMpi, if_neg hp, logformat_emit l v _ hl123, if_pos hr,
      write2file_isOpen _ st (cpu_stream_ne_empty r l v) ho]
  · rintro ⟨hl0, hm0, hlm⟩ hr
    have hp : ¬(m = 0 ∨ l = 0 ∨ l > m) := by omega
    have hl123 : l = 1 ∨ l = 2 ∨ l = 3 := by omega
    simp only [writeMpi, if_neg hp, logformat_emit l v _ hl123, if_neg hr]

/-- Witness for C6: a passing `warn` write on rank 1 queues one message
and leaves the file alone. -/
theorem writeMpi_paths_w :
    writeMpi 3 1 2 "x" ⟨true, true, [], 0, 0⟩ [] =
      .ok (⟨true, true, [], 0, 0⟩,
        [] ++ ["CPU " ++ toString 1 ++ " - " ++ levelLabelPadded 2 ++ "x"]) :=
  (writeMpi_paths 3 1 2 "x" ⟨true, true, [], 0, 0⟩ [] (by decide)).2.2
    (by decide) (by decide)

/-- Claim C7: `startListener` called from a non-coordinator rank, or with
job size 1, or with the listener already running, only executes the
barrier: the running flag and the number of spawned listener threads are
unchanged and no error is raised. -/
theorem startListener_noop (rank size : Nat) (st : MpiLogger)
    (h : rank ≠ 0 ∨ size = 1 ∨ st.m_listenerrunnging = true) :
    startListener rank size st = { st with barriers := st.barriers + 1 } := by
  rcases h with h | h | h <;> simp [startListener, h]

/-- Witness for C7 from rank 1 of a 4-process job. -/
theorem startListener_noop_w :
    startListener 1 4 ⟨false, 0, 0⟩ = ⟨false, 0, 0 + 1⟩ :=
  startListener_noop 1 4 ⟨false, 0, 0⟩ (by decide)

/-- Counterexample to claim C8 as stated: a reachable execution in which
`shutdownListener` has returned while a message that was in flight at
shutdown time is still pending, undrained and never written to the file —
the join guarantees listener termination, not a complete drain. -/
theorem shutdown_returns_with_pending :
    Relation.ReflTransGen Step
      ⟨true, true, ["m"], [], [], .outerCheck, .start⟩
      ⟨false, false, [], ["m"], [], .finished, .returned⟩ ∧
    (⟨false, false, [], ["m"], [], .finished, .returned⟩ : SysState).shutdownPC =
      .returned ∧
    (⟨false, false, [], ["m"], [], .finished, .returned⟩ : SysState).pending ≠ [] ∧
    (⟨false, false, [], ["m"], [], .finished, .returned⟩ : SysState).file = [] := by
  refine ⟨?_, rfl, by decide, rfl⟩
  refine Relation.ReflTransGen.head (Step.shutdownFlag _ rfl) ?_
  refine Relation.ReflTransGen.head (Step.deliver _ "m" [] rfl) ?_
  refine Relation.ReflTransGen.head (Step.listenerLeave _ rfl rfl) ?_
  refine Relation.ReflTransGen.head (Step.shutdownBarrier _ rfl) ?_
  exact Relation.ReflTransGen.head (Step.shutdownJoin _ rfl rfl)
    Relation.ReflTransGen.refl

/-- Claim C8 (amended): `shutdownListener` clears the running flag before
anything else (so past its first step the flag stays false), and on the
coordinator it can only return after acquiring `finalizeLock`, which the
listener holds until it has observed `running = false` and exited; hence
in every reachable state where the shutdown call has returned, the
listener has fully exited.  (Messages still pending when the listener
exits are not drained.) -/
theorem shutdown_join_order (a s : SysState)
    (hlock : a.lockHeld = true) (hstart : a.shutdownPC = .start)
    (hreach : Relation.ReflTransGen Step a s) :
    (s.shutdownPC ≠ .start → s.running = false) ∧
    (s.shutdownPC = .returned → s.listenerPC = .finished) := by
  have hinv : Inv s := by
    apply inv_reachable _ hreach
    refine ⟨fun _ => hlock, ?_, ?_⟩
    · intro hret
      rw [hstart] at hret
      exact absurd hret (by decide)
    · intro hne
      exact absurd hstart hne
  exact ⟨hinv.2.2, hinv.2.1⟩

/-- Witness for C8 (amended) along a complete shutdown execution. -/
theorem shutdown_join_order_w :
    ((⟨false, false, [], [], [], .finished, .returned⟩ : SysState).shutdownPC ≠
        .start →
      (⟨false, false, [], [], [], .finished, .returned⟩ : SysState).running =
        false) ∧
    ((⟨false, false, [], [], [], .finished, .returned⟩ : SysState).shutdownPC =
        .returned →
      (⟨false, false, [], [], [], .finished, .returned⟩ : SysState).listenerPC =
        .finished) := by
  apply shutdown_join_order ⟨true, true, [], [], [], .outerCheck, .start⟩ _ rfl rfl
  refine Relation.ReflTransGen.head (Step.shutdownFlag _ rfl) ?_
  refine Relation.ReflTransGen.head (Step.shutdownBarrier _ rfl) ?_
  refine Relation.ReflTransGen.head (Step.listenerLeave _ rfl rfl) ?_
  exact Relation.ReflTransGen.head (Step.shutdownJoin _ rfl rfl)
    Relation.ReflTransGen.refl

/-- Claim C9: the file-sink append contract: an empty line is a no-op
with no I/O; otherwise the file is opened lazily if not already open, the
line plus a newline is appended as one entry, and the flush happens
before the call returns. -/
theorem write2file_contract (d : String) (st : FileState) :
    (d = "" → write2file d st = .ok st) ∧
    (d ≠ "" → st.isOpen = true →
      write2file d st = .ok { st with
        contents := st.contents ++ [d ++ "\n"],
        flushes := st.flushes + 1 }) ∧
    (d ≠ "" → st.isOpen = false → st.canOpen = true →
      write2file d st = .ok { st with
        isOpen := true,
        contents := st.contents ++ [d ++ "\n"],
        flushes := st.flushes + 1,
        openAttempts := st.openAttempts + 1 }) := by
  refine ⟨?_, ?_, ?_⟩
  · intro hd
    simp [write2file, hd]
  · exact fun hd ho => write2file_isOpen d st hd ho
  · exact fun hd ho hc => write2file_lazyOpen d st hd ho hc

/-- Witness for C9: a lazy open followed by an append and a flush. -/
theorem write2file_contract_w :
    write2file "line" ⟨false, true, ["a\n"], 1, 1⟩ =
      .ok ⟨true, true, ["a\n", "line\n"], 2, 2⟩ :=
  (write2file_contract "line" ⟨false, true, ["a\n"], 1, 1⟩).2.2 (by decide)
    rfl rfl

/-- Claim C10: the severity filter runs before label validation: any
level whose numeric value is strictly greater than the threshold —
including values that are no enum label at all, such as 4 — makes `write`
return normally with no error and no I/O, and an `InvalidSeverity` error
can only arise for a level the filter does not remove. -/
theorem write_filter_before_validation (m l : Nat) (v : String)
    (st : FileState) (h : m < l) :
    write m l v st = .ok st ∧
    ∀ (m2 l2 : Nat) (v2 : String) (st2 : FileState) (e : LogError),
      write m2 l2 v2 st2 = .error e → l2 ≠ 0 ∧ m2 ≠ 0 ∧ l2 ≤ m2 := by
  constructor
  · exact write_suppressed m l v st (by omega)
  · intro m2 l2 v2 st2 e he
    by_cases hp : m2 = 0 ∨ l2 = 0 ∨ l2 > m2
    · rw [write_suppressed m2 l2 v2 st2 hp] at he
      exact absurd he (by simp)
    · push_neg at hp
      exact ⟨by omega, by omega, by omega⟩

/-- Witness for C10: the undefined numeric level 4 above an `info`
threshold is silently filtered. -/
theorem write_filter_before_validation_w :
    write 3 4 "x" ⟨true, true, [], 0, 0⟩ = .ok ⟨true, true, [], 0, 0⟩ :=
  (write_filter_before_validation 3 4 "x" ⟨true, true, [], 0, 0⟩ (by decide)).1

end logger
